import Mathlib

/-
Verification development for the tchannel repository (Go variant in
`fragmentation.go`, `connection.go`, `inbound.go`; node variant in
`node/argstream.js`, `node/v2/*`, and the v2 handler).

Shallow embedding conventions:
  * byte values are `Nat` (writers only ever copy bytes, so no arithmetic on
    them is needed; where Go truncates to a machine width an explicit `% 2^w`
    appears);
  * a Go byte slice aliasing a frame buffer is represented by the data it
    holds: an `outFragment`'s open chunk (`chunkStart`/`chunkSize` in the
    source) becomes an `Option (List Nat)` holding the open chunk's bytes,
    and the two-byte length prefix that `endChunk` patches in place becomes
    the closed-chunk list (a flushed fragment is its chunk list plus the
    MoreFragments flag);
  * fallible Go functions returning `error` become `Except FragError`;
  * channels are lists: the outbound fragment channel accumulates flushed
    frames, the inbound per-call channel is the queue of frames not yet
    decoded.
-/

/-- Errors of the fragmentation and connection layer.  The first group mirrors
the named `errors.New` values of `fragmentation.go`; `bufferUnderflow` stands
for the typed read-buffer errors; `nilDeref` marks the places where the Go
code would dereference a nil `*outFragment`; `divergence` marks the
`ensureOpenChunk` loop spinning forever (only possible when a fragment's
content capacity is `≤ 2`, which real frame sizes exclude); `outOfFuel` is a
modelling artefact of the fuelled write loop; `wouldBlock` marks a receive on
an empty inbound channel. -/
inductive FragError where
  | mismatchedChecksumTypes
  | writeAfterComplete
  | mismatchedChecksum
  | dataLeftover
  | tooLarge
  | alignedAtEndOfOpenFragment
  | noOpenChunk
  | chunkAlreadyOpen
  | eof
  | bufferUnderflow
  | nilDeref
  | divergence
  | outOfFuel
  | wouldBlock
  | streamFinished
  | arityExceeded
  | callBeforeInit
deriving DecidableEq, Repr

/-- A flushed fragment as it travels between peers: the ordered chunk list of
its payload and the state of the MoreFragments flag (`last = true` iff the
flag is clear), cf. `outFragment.finish`. -/
structure Frame where
  chunks : List (List Nat)
  last : Bool
deriving DecidableEq, Repr

/-- State of an outbound fragment under construction (`outFragment` in
`fragmentation.go`).  `remaining` is `len(f.remaining)`; `closed` holds the
chunks already terminated by `endChunk` (their length prefixes patched);
`chunkStart` is `some d` when a chunk with accumulated data `d` is open
(`len(f.chunkStart) > 0` in the source) and `none` otherwise. -/
structure outFragment where
  remaining : Nat
  closed : List (List Nat)
  chunkStart : Option (List Nat)
deriving DecidableEq, Repr

/-- outFragment.bytesRemaining -/
def outFragment.bytesRemaining (f : outFragment) : Nat := f.remaining

/-- outFragment.chunkOpen -/
def outFragment.chunkOpen (f : outFragment) : Bool := f.chunkStart.isSome

/-- outFragment.canFitNewChunk: a new chunk needs its 2-byte size prefix plus
at least one byte of content. -/
def outFragment.canFitNewChunk (f : outFragment) : Bool := decide (2 < f.remaining)

/-- outFragment.writeChunkData: the data must fit in the fragment and a chunk
must be open, otherwise the impl-error values are returned. -/
def outFragment.writeChunkData (f : outFragment) (b : List Nat) :
    Except FragError outFragment :=
  if f.remaining < b.length then .error .tooLarge
  else
    match f.chunkStart with
    | none => .error .noOpenChunk
    | some d => .ok ⟨f.remaining - b.length, f.closed, some (d ++ b)⟩

/-- outFragment.beginChunk: reserves the 2-byte size prefix
(`f.remaining[0:2]`) and opens an empty chunk.  Slicing a buffer shorter than
2 bytes would panic in Go, modelled by `bufferUnderflow`. -/
def outFragment.beginChunk (f : outFragment) : Except FragError outFragment :=
  if f.chunkOpen then .error .chunkAlreadyOpen
  else if f.remaining < 2 then .error .bufferUnderflow
  else .ok ⟨f.remaining - 2, f.closed, some []⟩

/-- outFragment.endChunk: patches the chunk's size prefix (the closed chunk
keeps its bytes; the prefix is determined by them) and clears `chunkStart`. -/
def outFragment.endChunk (f : outFragment) : Except FragError outFragment :=
  match f.chunkStart with
  | none => .error .noOpenChunk
  | some d => .ok ⟨f.remaining, f.closed ++ [d], none⟩

/-- outFragment.finish: closes a still-open chunk and stamps the
MoreFragments flag.  (The checksum field is stamped here too; checksums are
modelled at the byte level separately, see `newInboundFragment`.) -/
def outFragment.finish (f : outFragment) (last : Bool) : Frame :=
  match f.chunkStart with
  | some d => ⟨f.closed ++ [d], last⟩
  | none => ⟨f.closed, last⟩

/-- State of `multiPartWriter`.  The outbound fragment channel is passed
alongside as the list of frames flushed so far; `beginFragment` always
produces a fresh fragment of content capacity `cap` and `flushFragment`
appends to the list (the send queue is modelled as never full). -/
structure multiPartWriter where
  fragment : Option outFragment
  alignsAtEnd : Bool
  complete : Bool
deriving DecidableEq, Repr

/-- multiPartWriter.ensureOpenChunk.  The source loop runs at most twice when
the fragment capacity exceeds 2 (a fresh fragment can always fit a chunk);
with `cap ≤ 2` it would flush empty fragments forever, reported here as
`divergence`. -/
def multiPartWriter.ensureOpenChunk (cap : Nat) (w : multiPartWriter)
    (out : List Frame) : Except FragError (multiPartWriter × List Frame) :=
  match w.fragment with
  | none =>
    -- no fragment: beginFragment, then the loop opens a chunk in it
    if 2 < cap then
      match outFragment.beginChunk ⟨cap, [], none⟩ with
      | .error e => .error e
      | .ok f => .ok ({ w with fragment := some f }, out)
    else .error .divergence
  | some f =>
    if f.chunkOpen then .ok (w, out)
    else if f.canFitNewChunk then
      match f.beginChunk with
      | .error e => .error e
      | .ok f' => .ok ({ w with fragment := some f' }, out)
    else
      -- cannot fit a chunk: finishFragment(false) (endChunk's error is
      -- discarded in the source; no chunk is open here) and begin a new
      -- fragment, in which the loop then opens a chunk
      if 2 < cap then
        match outFragment.beginChunk ⟨cap, [], none⟩ with
        | .error e => .error e
        | .ok f' =>
          .ok ({ w with fragment := some f' }, out ++ [f.finish false])
      else .error .divergence

/-- The check after `multiPartWriter.Write`'s loop: if the fragment is
complete, send it immediately (`finishFragment(false)`).  With no fragment
the Go code dereferences nil (`w.fragment.bytesRemaining()`). -/
def multiPartWriter.afterLoop (w : multiPartWriter) (out : List Frame) :
    Except FragError (multiPartWriter × List Frame) :=
  match w.fragment with
  | none => .error .nilDeref
  | some f =>
    if f.bytesRemaining = 0 then
      .ok ({ w with fragment := none }, out ++ [f.finish false])
    else .ok (w, out)

/-- The loop body of `multiPartWriter.Write`, fuelled to make the recursion
total (the source loop consumes at least one byte of `b` per iteration in
every state the writer API can reach, so `b.length + 2` units of fuel
suffice there). -/
def multiPartWriter.writeLoop (cap : Nat) :
    Nat → multiPartWriter → List Frame → List Nat →
    Except FragError (multiPartWriter × List Frame)
  | 0, _, _, _ => .error .outOfFuel
  | fuel + 1, w, out, b =>
    if b = [] then multiPartWriter.afterLoop w out
    else
      match multiPartWriter.ensureOpenChunk cap w out with
      | .error e => .error e
      | .ok (w1, out1) =>
        match w1.fragment with
        | none => .error .nilDeref
        | some f =>
          if f.bytesRemaining < b.length then
            -- not enough space: write what fits, finish this fragment and
            -- continue with the rest of the part
            match f.writeChunkData (b.take f.bytesRemaining) with
            | .error e => .error e
            | .ok f' =>
              multiPartWriter.writeLoop cap fuel
                ⟨none, w1.alignsAtEnd, w1.complete⟩
                (out1 ++ [f'.finish false]) (b.drop f.bytesRemaining)
          else
            -- enough space: write the full chunk and be done with it
            match f.writeChunkData b with
            | .error e => .error e
            | .ok f' =>
              multiPartWriter.afterLoop
                ⟨some f', decide (f'.bytesRemaining = 0), w1.complete⟩ out1

/-- multiPartWriter.Write -/
def multiPartWriter.write (cap : Nat) (w : multiPartWriter) (out : List Frame)
    (b : List Nat) : Except FragError (multiPartWriter × List Frame) :=
  if w.complete then .error .writeAfterComplete
  else multiPartWriter.writeLoop cap (b.length + 2) w out b

/-- The unconditional tail of `multiPartWriter.endPart`: close any open chunk
(the source guards `endChunk` behind `chunkOpen`), then flush as the last
fragment if requested.  With no fragment the Go code dereferences nil. -/
def multiPartWriter.endPartClose (w : multiPartWriter) (out : List Frame)
    (last : Bool) : Except FragError (multiPartWriter × List Frame) :=
  match w.fragment with
  | none => .error .nilDeref
  | some f =>
    let f1 := match f.endChunk with
              | .ok g => g
              | .error _ => f
    if last then
      .ok (⟨some f1, w.alignsAtEnd, true⟩, out ++ [f1.finish true])
    else .ok (⟨some f1, w.alignsAtEnd, w.complete⟩, out)

/-- multiPartWriter.endPart.  When the previous write aligned with the end of
a fragment, a fresh fragment is begun whose first chunk is the zero-length
boundary marker (`beginChunk`'s return value is discarded in the source). -/
def multiPartWriter.endPart (cap : Nat) (w : multiPartWriter)
    (out : List Frame) (last : Bool) :
    Except FragError (multiPartWriter × List Frame) :=
  if w.alignsAtEnd then
    match w.fragment with
    | some _ => .error .alignedAtEndOfOpenFragment
    | none =>
      let f0 : outFragment := ⟨cap, [], none⟩
      let f1 := match f0.beginChunk with
                | .ok g => g
                | .error _ => f0
      multiPartWriter.endPartClose { w with fragment := some f1 } out last
  else multiPartWriter.endPartClose w out last

/-- Writing a full three-argument message: Write then endPart for each of
arg1, arg2, arg3, ending the message after arg3 (the usage pattern of
`WritePart` in the call pipelines). -/
def writeMessage (cap : Nat) (a1 a2 a3 : List Nat) :
    Except FragError (List Frame) :=
  match multiPartWriter.write cap ⟨none, false, false⟩ [] a1 with
  | .error e => .error e
  | .ok (w1, o1) =>
    match multiPartWriter.endPart cap w1 o1 false with
    | .error e => .error e
    | .ok (w2, o2) =>
      match multiPartWriter.write cap w2 o2 a2 with
      | .error e => .error e
      | .ok (w3, o3) =>
        match multiPartWriter.endPart cap w3 o3 false with
        | .error e => .error e
        | .ok (w4, o4) =>
          match multiPartWriter.write cap w4 o4 a3 with
          | .error e => .error e
          | .ok (w5, o5) =>
            match multiPartWriter.endPart cap w5 o5 true with
            | .error e => .error e
            | .ok (_, o6) => .ok o6

/-- State of `multiPartReader` (`fragmentation.go`): the unconsumed rest of
the current chunk and the two flags. -/
structure multiPartReader where
  chunk : List Nat
  lastChunkInFragment : Bool
  lastPartInMessage : Bool
deriving DecidableEq, Repr

/-- The inbound fragment channel as realised by `InboundCall` in
`inbound.go`: the chunks still pending in `curFragment`, the
`recvLastFragment` flag, and the frames queued on `recvCh` but not yet
decoded.  (Checksum verification of continuation frames happens in
`newInboundFragment`, modelled separately at the byte level; the chunk-level
channel carries frames whose checksums already verified.) -/
structure inCallChan where
  curChunks : List (List Nat)
  recvLastFragment : Bool
  recvCh : List Frame
deriving DecidableEq, Repr

/-- InboundCall.waitForFragment: return the current fragment if it still has
chunks, report EOF after the last fragment, otherwise decode the next queued
frame.  An empty queue would block the goroutine (`wouldBlock`). -/
def inCallChan.waitForFragment (s : inCallChan) : Except FragError inCallChan :=
  if s.curChunks ≠ [] then .ok s
  else if s.recvLastFragment then .error .eof
  else
    match s.recvCh with
    | [] => .error .wouldBlock
    | f :: rest => .ok ⟨f.chunks, f.last, rest⟩

/-- The reader's fetch step: `waitForFragment` followed by
`inFragment.nextChunk` and `hasMoreChunks` (the fragment aliases the call's
`curFragment`, so consuming a chunk pops it from the channel state). -/
def inCallChan.fetchChunk (s : inCallChan) :
    Except FragError (List Nat × Bool × inCallChan) :=
  match s.waitForFragment with
  | .error e => .error e
  | .ok s' =>
    match s'.curChunks with
    | [] => .ok ([], false, s')
    | c :: cs => .ok (c, decide (cs ≠ []), ⟨cs, s'.recvLastFragment, s'.recvCh⟩)

/-- Draining a part: repeated `multiPartReader.Read` until `io.EOF`, as
`ioutil.ReadAll` / `Input.ReadFrom` do.  Each iteration consumes the whole
current chunk (the caller's fixed-size buffer only splits the same bytes
across calls).  A clean `io.EOF` — the last chunk of the part consumed, or
`waitForFragment` reporting end of message — ends the drain; other errors
propagate.  Fuelled for totality; `readMessage` supplies sufficient fuel. -/
def multiPartReader.readAll :
    Nat → multiPartReader → inCallChan → List Nat →
    Except FragError (List Nat × multiPartReader × inCallChan)
  | 0, _, _, _ => .error .outOfFuel
  | fuel + 1, r, s, acc =>
    if r.chunk = [] then
      if r.lastChunkInFragment then .ok (acc, r, s)
      else
        match s.fetchChunk with
        | .error .eof => .ok (acc, r, s)
        | .error e => .error e
        | .ok (c, more, s') =>
          multiPartReader.readAll fuel ⟨[], more, r.lastPartInMessage⟩ s'
            (acc ++ c)
    else multiPartReader.readAll fuel ⟨[], r.lastChunkInFragment,
      r.lastPartInMessage⟩ s (acc ++ r.chunk)

/-- multiPartReader.endPart: confirm the part was fully read; when the part
ended on a fragment boundary, fetch the next fragment and confirm its first
chunk is the zero-length boundary marker.  On the last part nothing further
is checked (the confirmations are TODOs in the source). -/
def multiPartReader.endPart (r : multiPartReader) (s : inCallChan) :
    Except FragError (multiPartReader × inCallChan) :=
  if r.chunk ≠ [] then .error .dataLeftover
  else if !r.lastChunkInFragment && !r.lastPartInMessage then
    match s.fetchChunk with
    | .error e => .error e
    | .ok (c, _, s') =>
      if c ≠ [] then .error .dataLeftover
      else .ok ({ r with chunk := c }, s')
  else .ok (r, s)

/-- Fuel that always suffices for one part: every `readAll` step either
consumes a queued frame or a chunk of the current fragment. -/
def inCallChan.fuel (s : inCallChan) : Nat :=
  s.curChunks.length + (s.recvCh.map (fun f => f.chunks.length + 1)).sum + 2

/-- Reading a full three-argument message, as the inbound call does: the
first frame was already decoded by `handleCallReq` and seeds `curFragment`;
arg1 and arg2 use readers with `lastPartInMessage = false`, arg3 with
`true`; each part is drained and then ended. -/
def readMessage (frames : List Frame) :
    Except FragError (List Nat × List Nat × List Nat) :=
  match frames with
  | [] => .error .wouldBlock
  | f :: rest =>
    let s0 : inCallChan := ⟨f.chunks, f.last, rest⟩
    match multiPartReader.readAll s0.fuel ⟨[], false, false⟩ s0 [] with
    | .error e => .error e
    | .ok (a1, r1, s1) =>
      match r1.endPart s1 with
      | .error e => .error e
      | .ok (_, s1') =>
        match multiPartReader.readAll s1'.fuel ⟨[], false, false⟩ s1' [] with
        | .error e => .error e
        | .ok (a2, r2, s2) =>
          match r2.endPart s2 with
          | .error e => .error e
          | .ok (_, s2') =>
            match multiPartReader.readAll s2'.fuel ⟨[], false, true⟩ s2' [] with
            | .error e => .error e
            | .ok (a3, r3, s3) =>
              match r3.endPart s3 with
              | .error e => .error e
              | .ok _ => .ok (a1, a2, a3)

/-- State of the node variant's `InArgStream` (`node/argstream.js`):
`iStream` is `_iStream`, `args` the bytes written so far to the three
argument streams (a stream with index below `iStream` has been ended). -/
structure InArgStream where
  iStream : Nat
  args : List (List Nat)
deriving DecidableEq, Repr

/-- One step of the part loop in `InArgStream.handleFrame`: the `while`
guard demands parts left and `streams[_iStream]` defined; within the body a
non-first part first advances (ending the current stream), then a non-empty
part is written to the current stream (writing past stream 3 would raise in
JS, modelled as `arityExceeded`). -/
def InArgStream.feedParts (s : InArgStream) :
    List (List Nat) → Bool → Except FragError InArgStream
  | [], _ => .ok s
  | p :: rest, first =>
    if 3 ≤ s.iStream then .error .arityExceeded
    else
      let s1 := if first then s else { s with iStream := s.iStream + 1 }
      if p = [] then s1.feedParts rest false
      else if 3 ≤ s1.iStream then .error .arityExceeded
      else
        let newArgs := s1.args.set s1.iStream ((s1.args.getD s1.iStream []) ++ p)
        InArgStream.feedParts { s1 with args := newArgs } rest false

/-- InArgStream.handleFrame: `null` ends every remaining stream; otherwise a
finished stream set raises, else the parts are distributed over the streams,
advancing on each part after the first. -/
def InArgStream.handleFrame (s : InArgStream)
    (parts : Option (List (List Nat))) : Except FragError InArgStream :=
  match parts with
  | none => .ok { s with iStream := max s.iStream 3 }
  | some ps =>
    if 3 ≤ s.iStream then .error .streamFinished
    else s.feedParts ps true

/-- A checksum implementation (the `Checksum` interface): digest size,
initial state, per-byte state update and final digest bytes.  The concrete
implementations (checksum.go / node/v2/checksum.js) are not part of src/, so
the development is parametric in a family `K : Nat → ChecksumKind` mapping a
wire type code to its implementation. -/
structure ChecksumKind where
  size : Nat
  init : Nat
  addByte : Nat → Nat → Nat
  digest : Nat → List Nat

/-- A running checksum: its wire type code and rolling state.
`ChecksumType(t).New()` yields `⟨t, (K t).init⟩`. -/
structure Checksum where
  typeCode : Nat
  state : Nat
deriving DecidableEq, Repr

/-- Checksum.Add: fold the bytes into the rolling state. -/
def Checksum.add (K : Nat → ChecksumKind) (c : Checksum) (b : List Nat) :
    Checksum :=
  ⟨c.typeCode, b.foldl (K c.typeCode).addByte c.state⟩

/-- Checksum.Sum: the digest bytes of the current state. -/
def Checksum.sum (K : Nat → ChecksumKind) (c : Checksum) : List Nat :=
  (K c.typeCode).digest c.state

/-- typed.ReadBuffer.ReadByte -/
def readByte (buf : List Nat) : Except FragError (Nat × List Nat) :=
  match buf with
  | [] => .error .bufferUnderflow
  | b :: rest => .ok (b, rest)

/-- typed.ReadBuffer.ReadBytes -/
def readBytesF (n : Nat) (buf : List Nat) :
    Except FragError (List Nat × List Nat) :=
  if n ≤ buf.length then .ok (buf.take n, buf.drop n) else .error .bufferUnderflow

/-- The checksum-type step of `newInboundFragment`: with no prior checksum a
fresh one is created from the wire type code, otherwise the wire code must
match the prior checksum's type. -/
def initCsum (K : Nat → ChecksumKind) (seed : Option Checksum) (ct : Nat) :
    Except FragError Checksum :=
  match seed with
  | none => .ok ⟨ct, (K ct).init⟩
  | some c => if ct = c.typeCode then .ok c else .error .mismatchedChecksumTypes

/-- The prior-or-fresh digest state that seeds the recomputation over a
fragment's chunks (`f.checksum` right after the type check). -/
def seedCsum (K : Nat → ChecksumKind) (seed : Option Checksum) (ct : Nat) :
    Checksum :=
  match seed with
  | none => ⟨ct, (K ct).init⟩
  | some c => c

/-- The chunk loop of `newInboundFragment`: while bytes remain, read a
big-endian `u16` chunk size, then that many chunk bytes, adding each chunk to
the running checksum.  (`ReadUint16`/`ReadBytes` are inlined so the recursion
is structural on the buffer.) -/
def readChunks (K : Nat → ChecksumKind) :
    Checksum → List Nat → Except FragError (List (List Nat) × Checksum)
  | c, [] => .ok ([], c)
  | _, [_] => .error .bufferUnderflow
  | c, szHi :: szLo :: r1 =>
    let sz := szHi * 256 + szLo
    if sz ≤ r1.length then
      match readChunks K (c.add K (r1.take sz)) (r1.drop sz) with
      | .error e => .error e
      | .ok (chs, c') => .ok (r1.take sz :: chs, c')
    else .error .bufferUnderflow
termination_by _ rem => rem.length
decreasing_by
  simp only [List.length_drop, List.length_cons]
  omega

/-- The structural part of `newInboundFragment` (lines 320–373): flags byte,
message-specific header (`msg.read`, modelled as consuming `hl` bytes),
checksum type byte and type check, declared checksum bytes, then the chunk
loop.  Returns flags, wire checksum type, declared digest, chunks and the
recomputed running checksum. -/
def fragParsePre (K : Nat → ChecksumKind) (hl : Nat) (seed : Option Checksum)
    (payload : List Nat) :
    Except FragError (Nat × Nat × List Nat × List (List Nat) × Checksum) :=
  match readByte payload with
  | .error e => .error e
  | .ok (flags, r1) =>
    match readBytesF hl r1 with
    | .error e => .error e
    | .ok (_, r2) =>
      match readByte r2 with
      | .error e => .error e
      | .ok (ct, r3) =>
        match initCsum K seed ct with
        | .error e => .error e
        | .ok csum0 =>
          match readBytesF (K csum0.typeCode).size r3 with
          | .error e => .error e
          | .ok (peer, r4) =>
            match readChunks K csum0 r4 with
            | .error e => .error e
            | .ok (chs, done) => .ok (flags, ct, peer, chs, done)

/-- A decoded inbound fragment (`inFragment`). -/
structure inFragment where
  last : Bool
  chunks : List (List Nat)
  checksum : Checksum
deriving DecidableEq, Repr

/-- newInboundFragment (fragmentation.go 320–381): structural parse, then the
recomputed digest must equal the bytes declared in the header, else
`ErrMismatchedChecksum`.  `last` is bit 0 (MoreFragments) being clear. -/
def newInboundFragment (K : Nat → ChecksumKind) (hl : Nat)
    (seed : Option Checksum) (payload : List Nat) :
    Except FragError inFragment :=
  match fragParsePre K hl seed payload with
  | .error e => .error e
  | .ok (flags, _, peer, chs, done) =>
    if done.sum K = peer then .ok ⟨flags % 2 == 0, chs, done⟩
    else .error .mismatchedChecksum

/-- Connection states (`connectionState` in connection.go). -/
inductive connectionState where
  | waitingToRecvInitReq
  | waitingToSendInitReq
  | waitingToRecvInitRes
  | active
  | startClose
  | inboundClosed
  | closed
deriving DecidableEq, Repr

/-- Frame types dispatched by `readFrames`. -/
inductive frameKind where
  | callReq
  | callReqCont
  | callRes
  | callResCont
  | initReq
  | initRes
  | errorFrame
  | unknown
deriving DecidableEq, Repr

/-- Where `readFrames` routed a frame. -/
inductive dispatched where
  | toInbound        -- inbound.handleCallReq
  | toInboundCont    -- inbound.handleCallReqContinue
  | toOutboundRes    -- handleCallRes (body outside src/)
  | toOutboundResCont
  | toErrorHandler   -- handleError (body outside src/)
  | initReqProcessed
  | initResForwarded
  | connectionFailed -- connectionError: transition to closed
  | dropped
deriving DecidableEq, Repr

/-- connection.handleInitRes state gate (connection.go 280–306): only in
`waitingToRecvInitRes` is the frame forwarded; in every other state
`connectionError` closes the connection. -/
def handleInitResState (s : connectionState) : dispatched × connectionState :=
  match s with
  | .waitingToRecvInitRes => (.initResForwarded, s)
  | _ => (.connectionFailed, .closed)

/-- connection.handleInitReq (connection.go 228–272) for a well-formed frame
of the current protocol version: the state read-lock check accepts every
state; an InitRes is sent back and the state moves to active only from
`waitingToRecvInitReq`. -/
def handleInitReqState (s : connectionState) : dispatched × connectionState :=
  (.initReqProcessed, if s = .waitingToRecvInitReq then .active else s)

/-- The dispatch switch of `readFrames` (connection.go 397–441) together with
its effect on the connection state.  Call frames are routed to the call
pipelines with no state check; `handleCallReq`/`handleCallReqContinue`
(inbound.go) never touch the connection state; unknown types are ignored
(the protocol-error close is a TODO in the source). -/
def readFramesDispatch (s : connectionState) (k : frameKind) :
    dispatched × connectionState :=
  match k with
  | .callReq => (.toInbound, s)
  | .callReqCont => (.toInboundCont, s)
  | .callRes => (.toOutboundRes, s)
  | .callResCont => (.toOutboundResCont, s)
  | .initReq => handleInitReqState s
  | .initRes => handleInitResState s
  | .errorFrame => (.toErrorHandler, s)
  | .unknown => (.dropped, s)

/-- The node handler's handshake gate (part_000, `handleCallRequest` lines
135–152): a call request arriving while `remoteHostPort` is still null — no
init request seen — is refused with an error callback; otherwise handling
proceeds. -/
def handleCallRequestGate (remoteHostPort : Option Nat) :
    Except FragError Unit :=
  match remoteHostPort with
  | none => .error .callBeforeInit
  | some _ => .ok ()

/-- The capacity of a per-call inbound frame queue
(`make(chan *Frame, 512)` in `handleCallReq`). -/
def recvBufCap : Nat := 512

/-- State of the inbound call pipeline (`inboundCallPipeline`): the registry
of live calls with their buffered frames, and the Error frames pushed to the
connection's send channel, as `(id, errorCode)` pairs. -/
structure inPipeline where
  activeReqChs : List (Nat × List Nat)
  sent : List (Nat × Nat)
deriving DecidableEq, Repr

/-- Registry lookup (`p.activeReqChs[id]`). -/
def lookupReq (l : List (Nat × List Nat)) (id : Nat) : Option (List Nat) :=
  match l with
  | [] => none
  | (i, q) :: rest => if i = id then some q else lookupReq rest id

/-- Registry removal (`delete(p.activeReqChs, messageId)`). -/
def eraseReq (l : List (Nat × List Nat)) (id : Nat) : List (Nat × List Nat) :=
  match l with
  | [] => []
  | (i, q) :: rest => if i = id then eraseReq rest id else (i, q) :: eraseReq rest id

/-- Registry in-place enqueue. -/
def enqueueReq (l : List (Nat × List Nat)) (id : Nat) (tok : Nat) :
    List (Nat × List Nat) :=
  match l with
  | [] => []
  | (i, q) :: rest =>
    if i = id then (i, q ++ [tok]) :: enqueueReq rest id tok
    else (i, q) :: enqueueReq rest id tok

/-- inboundCallPipeline.handleCallReqContinue (inbound.go 99–120): unknown
ids are silently dropped; a non-full queue receives the frame; a full queue
kills the call — `inboundCallComplete` removes it from the registry and the
channel is closed — and nothing is sent (the server-busy Error frame is a
TODO in the source). -/
def handleCallReqContinue (p : inPipeline) (id tok : Nat) : inPipeline :=
  match lookupReq p.activeReqChs id with
  | none => p
  | some q =>
    if q.length < recvBufCap then
      { p with activeReqChs := enqueueReq p.activeReqChs id tok }
    else
      { p with activeReqChs := eraseReq p.activeReqChs id }

/-- Inbound call response states (inbound.go). -/
inductive inboundCallResponseState where
  | readyToWriteArg2
  | readyToWriteArg3
  | complete
  | errored
deriving DecidableEq, Repr

/-- The observable state `SendSystemError` acts on: the response state, the
call context's cancellation flag, and the Error frames pushed to the
connection's send channel as `(id, code)`. -/
structure responseCtx where
  state : inboundCallResponseState
  ctxCancelled : Bool
  sent : List (Nat × Nat)
deriving DecidableEq, Repr

/-- InboundCallResponse.SendSystemError (inbound.go 319–347): first cancel
the context and mark the response complete; then marshal the Error frame —
on failure only log and return nil; then push it to the send channel — when
full, only log and return nil.  The marshal outcome and the queue fullness
are environment inputs.  The returned value is the Go `error` result, always
nil. -/
def SendSystemError (c : responseCtx) (id code : Nat)
    (marshalOk sendBufFull : Bool) : Option FragError × responseCtx :=
  let c1 : responseCtx := ⟨.complete, true, c.sent⟩
  if !marshalOk then (none, c1)
  else if sendBufFull then (none, c1)
  else (none, { c1 with sent := c1.sent ++ [(id, code)] })

/-- NextMessageId (connection.go 337–340): `atomic.AddUint32` increments the
counter modulo 2^32 and returns the new value; the counter starts at 0. -/
def NextMessageId (c : Nat) : Nat × Nat :=
  ((c + 1) % 4294967296, (c + 1) % 4294967296)

/-- The counter value (equally, the id emitted by the k-th allocation) after
`k` calls to `NextMessageId` starting from a fresh connection. -/
def counterAfter : Nat → Nat
  | 0 => 0
  | k + 1 => (NextMessageId (counterAfter k)).1

/-- A concrete running-sum checksum family for evaluations: every type code
maps to a one-byte digest whose state is the byte sum modulo 256. -/
def sumKinds : Nat → ChecksumKind :=
  fun _ => ⟨1, 0, fun s b => (s + b) % 256, fun s => [s]⟩

/-- The checksum `InboundCall.waitForFragment` hands to `newInboundFragment`
for every continuation frame.  The `checksum Checksum` field of `InboundCall`
is declared in inbound.go but assigned nowhere in the Go sources — the only
`.checksum` assignments are in the JavaScript variant — so the interface
value passed is always its zero value, nil. -/
def inboundCallCarriedChecksum : Option Checksum := none

/-- The continuation-decode step of `InboundCall.waitForFragment`
(inbound.go 284–293): `newInboundFragment(frame, &reqContinue,
call.checksum)` with the call's carried checksum, which is always nil. -/
def decodeCallReqContinue (K : Nat → ChecksumKind) (hl : Nat)
    (payload : List Nat) : Except FragError inFragment :=
  newInboundFragment K hl inboundCallCarriedChecksum payload

/-- The checksum-type guard of the node continuation handler (part_000,
`handleCallRequestCont` lines 184–188): a continuation whose declared type
differs from the stored checksum's type fails the call before any
verification or delivery. -/
def handleCallRequestContCheck (prior cur : Nat) : Except FragError Unit :=
  if cur ≠ prior then .error .mismatchedChecksumTypes else .ok ()

/-- C1: the claim demands that every triple of byte sequences — including
empty ones — round-trips through the fragment writer and reader.  The code
fails on the triple `([1], [], [2])` with fragment capacity 10: ending the
empty arg2 emits no chunk at all (`endPart` only closes an open chunk, and
no boundary marker is written unless the previous write ended exactly at a
fragment boundary), so the wire carries only the two chunks `[1]` and `[2]`;
the reader hands `[2]` — arg3's bytes — to arg2 and then fails with `io.EOF`
when ending arg2, instead of yielding `([1], [], [2])`. -/
theorem c1_round_trip_fails_on_empty_argument :
    writeMessage 10 [1] [] [2] = .ok [⟨[[1], [2]], true⟩] ∧
    readMessage [⟨[[1], [2]], true⟩] = .error .eof := by
  exact ⟨rfl, rfl⟩

/-- Helper for C4: after `k` allocations the counter holds `k mod 2^32`. -/
theorem counterAfter_eq (k : Nat) : counterAfter k = k % 4294967296 := by
  induction k with
  | zero => rfl
  | succ n ih => simp [counterAfter, NextMessageId, ih, Nat.mod_add_mod]

/-- C4 counterexample: the claim says the reserved value 0 is never produced,
even across the wrap point; but the allocation that wraps the 32-bit counter
(`atomic.AddUint32` is modulo 2^32) emits exactly 0. -/
theorem c4_counterexample_wrap_emits_zero : counterAfter 4294967296 = 0 := by
  rw [counterAfter_eq]

/-- C4 amended: the outbound counter starts so that the first emitted id is
1 and the k-th allocation emits `k mod 2^32`; ids are strictly distinct until
the wrap point, but the wrap allocation emits the reserved value 0 (the node
variant's `(lastSentFrameId + 1) % MaxId` likewise reaches 0). -/
theorem c4_amended_ids_distinct_until_wrap_then_zero :
    counterAfter 1 = 1 ∧
    (∀ j k : Nat, 0 < j → j < k → k < 4294967296 →
      counterAfter j ≠ counterAfter k) ∧
    counterAfter 4294967296 = 0 := by
  refine ⟨rfl, ?_, by rw [counterAfter_eq]⟩
  intro j k hj hjk hk
  rw [counterAfter_eq, counterAfter_eq,
    Nat.mod_eq_of_lt (by omega), Nat.mod_eq_of_lt hk]
  omega

/-- Witness for C4's amended theorem at j = 1, k = 2. -/
theorem c4_amended_witness : counterAfter 1 ≠ counterAfter 2 :=
  c4_amended_ids_distinct_until_wrap_then_zero.2.1 1 2 (by decide) (by decide)
    (by decide)

/-- C5 counterexample: a connection still waiting to receive the peer's
InitReq that receives a CallReq dispatches it to the inbound pipeline and
stays in its handshake state — it is not treated as a protocol error and
does not transition to Closed. -/
theorem c5_counterexample_callreq_dispatched_before_active :
    readFramesDispatch .waitingToRecvInitReq .callReq =
      (.toInbound, .waitingToRecvInitReq) ∧
    (readFramesDispatch .waitingToRecvInitReq .callReq).2 ≠ .closed := by
  exact ⟨rfl, by decide⟩

/-- C5 amended: the Go frame loop performs no handshake gating — CallReq and
CallReqCont frames are routed to the inbound pipeline in every connection
state, leaving the state unchanged; only InitRes handling is state-checked,
closing the connection unless it is waiting for an InitRes.  (The node
handler, by contrast, refuses call requests seen before the init request,
though via an error callback rather than a transition of a state enum.) -/
theorem c5_amended_no_handshake_gating :
    (∀ s : connectionState,
      readFramesDispatch s .callReq = (.toInbound, s) ∧
      readFramesDispatch s .callReqCont = (.toInboundCont, s) ∧
      readFramesDispatch s .initRes =
        (if s = .waitingToRecvInitRes then (.initResForwarded, s)
         else (.connectionFailed, .closed))) ∧
    handleCallRequestGate none = .error .callBeforeInit := by
  constructor
  · intro s
    refine ⟨rfl, rfl, ?_⟩
    cases s <;> rfl
  · rfl

set_option maxRecDepth 8192 in
/-- C6: the claim (and the TODO in the source) say a queue-full CallReqCont
aborts the call with a Busy Error frame; the code removes the call's channel
from the registry and closes it but pushes no frame at all.  Evaluated at a
pipeline with live id 7 whose queue already holds 512 frames. -/
theorem c6_overflow_drops_call_without_busy_frame :
    handleCallReqContinue ⟨[(7, List.replicate 512 0)], []⟩ 7 99 =
      ⟨[], []⟩ := by
  simp [handleCallReqContinue, lookupReq, eraseReq, recvBufCap]

/-- C7 counterexample: a message whose terminal fragment delivered only arg1
is accepted without any incomplete-message failure — the node reader's
`handleFrame(null)` simply ends the remaining argument streams. -/
theorem c7_counterexample_short_message_accepted :
    InArgStream.handleFrame ⟨0, [[], [], []]⟩ (some [[5]]) =
      .ok ⟨0, [[5], [], []]⟩ ∧
    InArgStream.handleFrame ⟨0, [[5], [], []]⟩ none =
      .ok ⟨3, [[5], [], []]⟩ := by
  exact ⟨rfl, rfl⟩

/-- C7 amended: neither variant checks that the argument index reaches 3 at
the terminal fragment.  The Go reader's `endPart` on the last part succeeds
unconditionally once the current chunk is consumed (the confirmations are
TODOs), and the node reader's `handleFrame(null)` ends all remaining streams
without error; missing arguments surface only as empty streams or as
`io.EOF` on later reads, never as an incomplete-message error. -/
theorem c7_amended_no_terminal_arity_check :
    (∀ (r : multiPartReader) (s : inCallChan),
      r.lastPartInMessage = true → r.chunk = [] →
      multiPartReader.endPart r s = .ok (r, s)) ∧
    (∀ t : InArgStream,
      InArgStream.handleFrame t none = .ok { t with iStream := max t.iStream 3 }) := by
  constructor
  · intro r s hl hc
    simp [multiPartReader.endPart, hc, hl]
  · intro t
    rfl

/-- Witness for C7's amended theorem: a terminal-part reader with consumed
chunk, over a channel that would still have data available. -/
theorem c7_amended_witness :
    multiPartReader.endPart ⟨[], false, true⟩ ⟨[], true, []⟩ =
      .ok (⟨[], false, true⟩, ⟨[], true, []⟩) :=
  c7_amended_no_terminal_arity_check.1 ⟨[], false, true⟩ ⟨[], true, []⟩ rfl rfl

/-- C10: SendSystemError always returns nil, always marks the response
Complete and cancels the call context, and the Error frame reaches the send
channel only when marshalling succeeded and the channel is not full — in the
failure cases it is silently dropped and the caller cannot observe it. -/
theorem c10_send_system_error_infallible :
    ∀ (c : responseCtx) (id code : Nat) (marshalOk sendBufFull : Bool),
      (SendSystemError c id code marshalOk sendBufFull).1 = none ∧
      (SendSystemError c id code marshalOk sendBufFull).2.state = .complete ∧
      (SendSystemError c id code marshalOk sendBufFull).2.ctxCancelled = true ∧
      (SendSystemError c id code marshalOk sendBufFull).2.sent =
        (if marshalOk && !sendBufFull then c.sent ++ [(id, code)] else c.sent) := by
  intro c id code mo sf
  cases mo <;> cases sf <;> simp [SendSystemError]

/-- C2: a successful write whose final byte exactly filled the current
fragment leaves the writer with `alignsAtEnd` set and the filled fragment
flushed (`fragment = none`); ending the argument then begins a fresh
fragment whose first chunk is the zero-length boundary marker (for the last
argument it is flushed at once, carrying exactly that zero-length chunk).
On the reading side, ending a part that stopped on a fragment boundary
consumes exactly the zero-length first chunk of the next fragment: no bytes
are carried into any argument and the next argument's reads start at the
following chunk. -/
theorem c2_zero_length_chunk_marks_boundary :
    (∀ (cap : Nat) (w w' : multiPartWriter) (out out' : List Frame)
        (b : List Nat),
      2 < cap →
      multiPartWriter.write cap w out b = .ok (w', out') →
      w'.fragment = none → w'.alignsAtEnd = true →
      multiPartWriter.endPart cap w' out' false =
        .ok (⟨some ⟨cap - 2, [[]], none⟩, true, w'.complete⟩, out') ∧
      multiPartWriter.endPart cap w' out' true =
        .ok (⟨some ⟨cap - 2, [[]], none⟩, true, true⟩, out' ++ [⟨[[]], true⟩])) ∧
    (∀ (r : multiPartReader) (s : inCallChan) (rest : List (List Nat))
        (l : Bool) (fs : List Frame),
      r.chunk = [] → r.lastChunkInFragment = false →
      r.lastPartInMessage = false →
      s.curChunks = [] → s.recvLastFragment = false →
      s.recvCh = ⟨[] :: rest, l⟩ :: fs →
      multiPartReader.endPart r s = .ok (r, ⟨rest, l, fs⟩)) := by
  constructor
  · intro cap w w' out out' b hcap _hw hfrag halign
    obtain ⟨wf, wa, wc⟩ := w'
    simp only at hfrag halign
    subst hfrag halign
    have h2 : ¬ cap < 2 := by omega
    constructor <;>
      simp [multiPartWriter.endPart, multiPartWriter.endPartClose,
        outFragment.beginChunk, outFragment.endChunk, outFragment.chunkOpen,
        outFragment.finish, h2]
  · intro r s rest l fs hc hlc hlp hcur hrecv hch
    obtain ⟨rc, rl, rp⟩ := r
    simp only at hc hlc hlp
    subst hc hlc hlp
    simp [multiPartReader.endPart, inCallChan.fetchChunk,
      inCallChan.waitForFragment, hcur, hrecv, hch]

/-- Witness for C2 at fragment capacity 4: writing the two-byte argument
`[9, 9]` exactly fills the fresh fragment; ending it begins the zero-chunk
fragment, and the reader consumes the zero-length chunk of the follow-up
fragment when ending the corresponding part. -/
theorem c2_witness :
    (multiPartWriter.endPart 4 ⟨none, true, false⟩ [⟨[[9, 9]], false⟩] false =
        .ok (⟨some ⟨2, [[]], none⟩, true, false⟩, [⟨[[9, 9]], false⟩]) ∧
      multiPartWriter.endPart 4 ⟨none, true, false⟩ [⟨[[9, 9]], false⟩] true =
        .ok (⟨some ⟨2, [[]], none⟩, true, true⟩,
          [⟨[[9, 9]], false⟩] ++ [⟨[[]], true⟩])) ∧
    multiPartReader.endPart ⟨[], false, false⟩ ⟨[], false, [⟨[[], [7]], true⟩]⟩ =
      .ok (⟨[], false, false⟩, ⟨[[7]], true, []⟩) := by
  constructor
  · exact c2_zero_length_chunk_marks_boundary.1 4 ⟨none, false, false⟩
      ⟨none, true, false⟩ [] [⟨[[9, 9]], false⟩] [9, 9] (by decide) (by rfl)
      rfl rfl
  · exact c2_zero_length_chunk_marks_boundary.2 ⟨[], false, false⟩
      ⟨[], false, [⟨[[], [7]], true⟩]⟩ [[7]] true [] rfl rfl rfl rfl rfl rfl

/-- Helper: reading exactly the length of a known prefix returns that prefix
and the rest. -/
theorem readBytesF_exact (a b : List Nat) :
    readBytesF a.length (a ++ b) = .ok (a, b) := by
  simp [readBytesF, List.take_left, List.drop_left]

/-- Helper: the type guard of `newInboundFragment` (fragmentation.go
350–351) does reject a declared type differing from the type of a checksum
that is actually supplied — but the Go caller never supplies one for
continuations (`inboundCallCarriedChecksum`), leaving this branch
unreachable there.  `hdr` is the message-specific header consumed by
`msg.read`. -/
theorem newInboundFragment_seeded_type_check :
    ∀ (K : Nat → ChecksumKind) (flags : Nat) (hdr : List Nat) (ct : Nat)
      (rest : List Nat) (c : Checksum),
      ct ≠ c.typeCode →
      newInboundFragment K hdr.length (some c) (flags :: (hdr ++ ct :: rest)) =
        .error .mismatchedChecksumTypes := by
  intro K flags hdr ct rest c hne
  simp [newInboundFragment, fragParsePre, readByte, readBytesF_exact,
    initCsum, hne]

/-- Helper: a single-chunk content region `[0, 1, b]` (u16 size 1 followed
by one byte) parses to the one chunk `[b]`, folding `b` into the running-sum
state. -/
theorem readChunks_single (c : Checksum) (b : Nat) :
    readChunks sumKinds c [0, 1, b] =
      .ok ([[b]], ⟨c.typeCode, (c.state + b) % 256⟩) := by
  rw [readChunks]
  simp [Checksum.add, sumKinds]
  rw [readChunks]

/-- Helper: a first fragment of checksum type 9 carrying the chunk `[3]`
with the correct declared digest decodes successfully, leaving the digest
state 3 that the claims say must seed the next fragment. -/
theorem decode_first_fragment_type9 :
    newInboundFragment sumKinds 0 none [1, 9, 3, 0, 1, 3] =
      .ok ⟨false, [[3]], ⟨9, 3⟩⟩ := by
  have hpre : fragParsePre sumKinds 0 none [1, 9, 3, 0, 1, 3] =
      .ok (1, 9, [3], [[3]], ⟨9, 3⟩) := by
    unfold fragParsePre
    simp [readByte, readBytesF, initCsum, sumKinds, readChunks_single]
  unfold newInboundFragment
  rw [hpre]
  simp [Checksum.sum, sumKinds]

/-- C3: the claim says the receiver recomputes each fragment's digest seeded
with the digest state carried over from the prior fragment, failing iff the
recomputation differs from the declared value.  The Go receiver does not:
`InboundCall.checksum` is never assigned, so `waitForFragment` decodes every
continuation with a nil checksum and the recomputation is unseeded.  The
three conjuncts: a first fragment of type 9 decodes leaving digest state 3;
an honest continuation declaring the rolled digest (3 + 2 = 5) is rejected
by the Go path with `ErrMismatchedChecksum`; yet the seeded recomputation
the claim describes matches the declared value and accepts that same
fragment (as the node handler, which verifies with the prior reported
value, would). -/
theorem c3_continuation_verified_unseeded :
    newInboundFragment sumKinds 0 none [1, 9, 3, 0, 1, 3] =
      .ok ⟨false, [[3]], ⟨9, 3⟩⟩ ∧
    decodeCallReqContinue sumKinds 0 [0, 9, 5, 0, 1, 2] =
      .error .mismatchedChecksum ∧
    newInboundFragment sumKinds 0 (some ⟨9, 3⟩) [0, 9, 5, 0, 1, 2] =
      .ok ⟨true, [[2]], ⟨9, 5⟩⟩ := by
  refine ⟨decode_first_fragment_type9, ?_, ?_⟩
  · have hpre : fragParsePre sumKinds 0 none [0, 9, 5, 0, 1, 2] =
        .ok (0, 9, [5], [[2]], ⟨9, 2⟩) := by
      unfold fragParsePre
      simp [readByte, readBytesF, initCsum, sumKinds, readChunks_single]
    unfold decodeCallReqContinue inboundCallCarriedChecksum newInboundFragment
    rw [hpre]
    simp [Checksum.sum, sumKinds]
  · have hpre : fragParsePre sumKinds 0 (some ⟨9, 3⟩) [0, 9, 5, 0, 1, 2] =
        .ok (0, 9, [5], [[2]], ⟨9, 5⟩) := by
      unfold fragParsePre
      simp [readByte, readBytesF, initCsum, sumKinds, readChunks_single]
    unfold newInboundFragment
    rw [hpre]
    simp [Checksum.sum, sumKinds]

/-- C8: the claim says a continuation whose declared checksum type differs
from the type established by the first fragment fails with the
mismatched-types error and delivers no chunk bytes.  In the Go variant the
established type never reaches the decoder — the carried checksum is always
nil — so the type guard of `newInboundFragment` is unreachable for
continuations: after a first fragment of type 9, a continuation declaring
type 3 with a self-consistent digest is decoded successfully and its chunks
are delivered.  The node handler's explicit guard (the claim's intended
behaviour) rejects the same type switch. -/
theorem c8_type_switch_continuation_accepted :
    newInboundFragment sumKinds 0 none [1, 9, 3, 0, 1, 3] =
      .ok ⟨false, [[3]], ⟨9, 3⟩⟩ ∧
    decodeCallReqContinue sumKinds 0 [0, 3, 4, 0, 1, 4] =
      .ok ⟨true, [[4]], ⟨3, 4⟩⟩ ∧
    handleCallRequestContCheck 9 3 = .error .mismatchedChecksumTypes := by
  refine ⟨decode_first_fragment_type9, ?_, rfl⟩
  have hpre : fragParsePre sumKinds 0 none [0, 3, 4, 0, 1, 4] =
      .ok (0, 3, [4], [[4]], ⟨3, 4⟩) := by
    unfold fragParsePre
    simp [readByte, readBytesF, initCsum, sumKinds, readChunks_single]
  unfold decodeCallReqContinue inboundCallCarriedChecksum newInboundFragment
  rw [hpre]
  simp [Checksum.sum, sumKinds]

/-- Helper: beginChunk succeeds on a fragment with no open chunk and at
least two bytes remaining. -/
theorem beginChunk_eq (f : outFragment) (h1 : f.chunkOpen = false)
    (h2 : ¬ f.remaining < 2) :
    f.beginChunk = .ok ⟨f.remaining - 2, f.closed, some []⟩ := by
  simp [outFragment.beginChunk, h1, h2]

/-- Helper: ensureOpenChunk either yields a writer holding a fragment with an
open chunk, or reports the divergence of the source loop for capacities that
cannot fit a chunk. -/
theorem ensureOpenChunk_cases (cap : Nat) (w : multiPartWriter)
    (out : List Frame) :
    (∃ w1 out1 f d, multiPartWriter.ensureOpenChunk cap w out = .ok (w1, out1) ∧
      w1.fragment = some f ∧ f.chunkStart = some d) ∨
    multiPartWriter.ensureOpenChunk cap w out = .error .divergence := by
  obtain ⟨frag, wa, wc⟩ := w
  cases frag with
  | none =>
    by_cases hcap : 2 < cap
    · refine .inl ⟨⟨some ⟨cap - 2, [], some []⟩, wa, wc⟩, out,
        ⟨cap - 2, [], some []⟩, [], ?_, rfl, rfl⟩
      simp [multiPartWriter.ensureOpenChunk, hcap, outFragment.beginChunk,
        outFragment.chunkOpen, show ¬ cap < 2 by omega]
    · exact .inr (by simp [multiPartWriter.ensureOpenChunk, hcap])
  | some f =>
    by_cases hopen : f.chunkStart.isSome
    · obtain ⟨d, hd⟩ := Option.isSome_iff_exists.mp hopen
      refine .inl ⟨⟨some f, wa, wc⟩, out, f, d, ?_, rfl, hd⟩
      simp [multiPartWriter.ensureOpenChunk, outFragment.chunkOpen, hopen]
    · by_cases hfit : 2 < f.remaining
      · refine .inl ⟨⟨some ⟨f.remaining - 2, f.closed, some []⟩, wa, wc⟩, out,
          ⟨f.remaining - 2, f.closed, some []⟩, [], ?_, rfl, rfl⟩
        simp [multiPartWriter.ensureOpenChunk, outFragment.chunkOpen, hopen,
          outFragment.canFitNewChunk, hfit, outFragment.beginChunk,
          show ¬ f.remaining < 2 by omega]
      · by_cases hcap : 2 < cap
        · refine .inl ⟨⟨some ⟨cap - 2, [], some []⟩, wa, wc⟩,
            out ++ [f.finish false], ⟨cap - 2, [], some []⟩, [], ?_, rfl, rfl⟩
          simp [multiPartWriter.ensureOpenChunk, outFragment.chunkOpen, hopen,
            outFragment.canFitNewChunk, hfit, hcap, outFragment.beginChunk,
            show ¬ cap < 2 by omega]
        · exact .inr (by simp [multiPartWriter.ensureOpenChunk,
            outFragment.chunkOpen, hopen, outFragment.canFitNewChunk, hfit,
            hcap])

/-- Helper: writeChunkData succeeds whenever the data fits and a chunk is
open — exactly the preconditions the write loop establishes. -/
theorem writeChunkData_ok (f : outFragment) (b : List Nat) (d : List Nat)
    (hfit : ¬ f.remaining < b.length) (hopen : f.chunkStart = some d) :
    f.writeChunkData b = .ok ⟨f.remaining - b.length, f.closed, some (d ++ b)⟩ := by
  simp [outFragment.writeChunkData, hfit, hopen]

/-- Helper: the post-loop flush check can only fail by dereferencing a nil
fragment. -/
theorem afterLoop_err (w : multiPartWriter) (out : List Frame) (e : FragError)
    (h : multiPartWriter.afterLoop w out = .error e) : e = .nilDeref := by
  unfold multiPartWriter.afterLoop at h
  split at h
  · exact (Except.error.injEq _ _).mp h.symm
  · split at h <;> simp_all

/-- Helper: the common tail of endPart can only fail by dereferencing a nil
fragment. -/
theorem endPartClose_err (w : multiPartWriter) (out : List Frame) (last : Bool)
    (e : FragError) (h : multiPartWriter.endPartClose w out last = .error e) :
    e = .nilDeref := by
  unfold multiPartWriter.endPartClose at h
  split at h
  · injection h with h
    exact h.symm
  · simp only at h
    split at h <;> cases h

/-- Helper: the write loop never surfaces the impl-error values of
writeChunkData; every internal call satisfies its preconditions. -/
theorem writeLoop_no_impl_error :
    ∀ (fuel cap : Nat) (w : multiPartWriter) (out : List Frame)
      (b : List Nat) (e : FragError),
      multiPartWriter.writeLoop cap fuel w out b = .error e →
      e ≠ .tooLarge ∧ e ≠ .noOpenChunk := by
  intro fuel
  induction fuel with
  | zero =>
    intro cap w out b e h
    simp only [multiPartWriter.writeLoop] at h
    cases h
    exact ⟨by decide, by decide⟩
  | succ n ih =>
    intro cap w out b e h
    simp only [multiPartWriter.writeLoop] at h
    by_cases hb : b = []
    · rw [if_pos hb] at h
      have := afterLoop_err _ _ _ h
      subst this
      exact ⟨by decide, by decide⟩
    · rw [if_neg hb] at h
      rcases ensureOpenChunk_cases cap w out with
        ⟨w1, out1, f, d, hok, hfrag, hopen⟩ | hdiv
      · rw [hok] at h
        dsimp only at h
        rw [hfrag] at h
        dsimp only at h
        by_cases hsplit : f.bytesRemaining < b.length
        · rw [if_pos hsplit] at h
          rw [writeChunkData_ok f (b.take f.bytesRemaining) d
            (by simp [outFragment.bytesRemaining, List.length_take]) hopen] at h
          dsimp only at h
          exact ih cap _ _ _ e h
        · rw [if_neg hsplit] at h
          rw [writeChunkData_ok f b d
            (by simpa [outFragment.bytesRemaining] using hsplit) hopen] at h
          dsimp only at h
          have := afterLoop_err _ _ _ h
          subst this
          exact ⟨by decide, by decide⟩
      · rw [hdiv] at h
        cases h
        exact ⟨by decide, by decide⟩

/-- C9: along every write the data handed to `writeChunkData` fits the
fragment's remaining capacity and a chunk is always open, so the
`errTooLarge` and `errNoOpenChunk` branches are unreachable: neither the
write loop, nor Write, nor endPart ever returns those errors, for any writer
state, channel contents, capacity, or data. -/
theorem c9_impl_error_branches_unreachable :
    ∀ (cap fuel : Nat) (w : multiPartWriter) (out : List Frame)
      (b : List Nat) (last : Bool),
      multiPartWriter.writeLoop cap fuel w out b ≠ .error .tooLarge ∧
      multiPartWriter.writeLoop cap fuel w out b ≠ .error .noOpenChunk ∧
      multiPartWriter.write cap w out b ≠ .error .tooLarge ∧
      multiPartWriter.write cap w out b ≠ .error .noOpenChunk ∧
      multiPartWriter.endPart cap w out last ≠ .error .tooLarge ∧
      multiPartWriter.endPart cap w out last ≠ .error .noOpenChunk := by
  intro cap fuel w out b last
  have hw : ∀ e, multiPartWriter.write cap w out b = .error e →
      e ≠ .tooLarge ∧ e ≠ .noOpenChunk := by
    intro e h
    unfold multiPartWriter.write at h
    split at h
    · cases h
      exact ⟨by decide, by decide⟩
    · exact writeLoop_no_impl_error _ _ _ _ _ _ h
  have hend : ∀ e, multiPartWriter.endPart cap w out last = .error e →
      e ≠ .tooLarge ∧ e ≠ .noOpenChunk := by
    intro e h
    unfold multiPartWriter.endPart at h
    split at h
    · split at h
      · injection h with h
        subst h
        exact ⟨by decide, by decide⟩
      · have := endPartClose_err _ _ _ _ h
        subst this
        exact ⟨by decide, by decide⟩
    · have := endPartClose_err _ _ _ _ h
      subst this
      exact ⟨by decide, by decide⟩
  refine ⟨?_, ?_, ?_, ?_, ?_, ?_⟩
  · intro h
    exact (writeLoop_no_impl_error fuel cap w out b _ h).1 rfl
  · intro h
    exact (writeLoop_no_impl_error fuel cap w out b _ h).2 rfl
  · intro h
    exact (hw _ h).1 rfl
  · intro h
    exact (hw _ h).2 rfl
  · intro h
    exact (hend _ h).1 rfl
  · intro h
    exact (hend _ h).2 rfl

/-- Helper: readByte only fails by buffer underflow. -/
theorem readByte_err (buf : List Nat) (e : FragError)
    (h : readByte buf = .error e) : e = .bufferUnderflow := by
  cases buf with
  | nil =>
    injection h with h
    exact h.symm
  | cons b rest => cases h

/-- Helper: readBytesF only fails by buffer underflow. -/
theorem readBytesF_err (n : Nat) (buf : List Nat) (e : FragError)
    (h : readBytesF n buf = .error e) : e = .bufferUnderflow := by
  unfold readBytesF at h
  split at h
  · cases h
  · injection h with h
    exact h.symm

/-- Helper: initCsum only fails with the mismatched-type error. -/
theorem initCsum_err (K : Nat → ChecksumKind) (seed : Option Checksum)
    (ct : Nat) (e : FragError) (h : initCsum K seed ct = .error e) :
    e = .mismatchedChecksumTypes := by
  unfold initCsum at h
  split at h
  · cases h
  · split at h
    · cases h
    · injection h with h
      exact h.symm

/-- Helper: a successful initCsum yields the seed checksum (the carried-over
one, or a fresh one of the wire type). -/
theorem initCsum_ok (K : Nat → ChecksumKind) (seed : Option Checksum)
    (ct : Nat) (c0 : Checksum) (h : initCsum K seed ct = .ok c0) :
    c0 = seedCsum K seed ct := by
  unfold initCsum at h
  unfold seedCsum
  split at h
  · injection h with h
    exact h.symm
  · split at h
    · injection h with h
      exact h.symm
    · cases h

/-- Helper: the chunk loop only fails by buffer underflow. -/
theorem readChunks_err (K : Nat → ChecksumKind) :
    ∀ (c : Checksum) (rem : List Nat) (e : FragError),
      readChunks K c rem = .error e → e = .bufferUnderflow := by
  intro c rem
  induction c, rem using readChunks.induct K with
  | case1 c =>
    intro e h
    rw [readChunks] at h
    cases h
  | case2 c hd =>
    intro e h
    rw [readChunks] at h
    injection h with h
    exact h.symm
  | case3 c szHi szLo r1 sz hle e0 hrec ih =>
    intro e h
    rw [readChunks] at h
    rw [if_pos hle, hrec] at h
    injection h with h
    subst h
    exact ih _ hrec
  | case4 c szHi szLo r1 sz hle chs c' hrec ih =>
    intro e h
    rw [readChunks] at h
    rw [if_pos hle, hrec] at h
    cases h
  | case5 c szHi szLo r1 sz hle =>
    intro e h
    rw [readChunks] at h
    rw [if_neg hle] at h
    injection h with h
    exact h.symm

/-- Helper: the chunk loop threads the running checksum — a successful parse
returns the fold of `Checksum.Add` over the parsed chunks, starting from the
given digest state. -/
theorem readChunks_fold (K : Nat → ChecksumKind) :
    ∀ (c : Checksum) (rem : List Nat) (chs : List (List Nat)) (c' : Checksum),
      readChunks K c rem = .ok (chs, c') →
      c' = chs.foldl (Checksum.add K) c := by
  intro c rem
  induction c, rem using readChunks.induct K with
  | case1 c =>
    intro chs c' h
    rw [readChunks] at h
    injection h with h
    cases h
    rfl
  | case2 c hd =>
    intro chs c' h
    rw [readChunks] at h
    cases h
  | case3 c szHi szLo r1 sz hle e0 hrec ih =>
    intro chs c' h
    rw [readChunks] at h
    rw [if_pos hle, hrec] at h
    cases h
  | case4 c szHi szLo r1 sz hle chs0 c0 hrec ih =>
    intro chs c' h
    rw [readChunks] at h
    rw [if_pos hle, hrec] at h
    injection h with h
    cases h
    simpa using ih _ _ hrec
  | case5 c szHi szLo r1 sz hle =>
    intro chs c' h
    rw [readChunks] at h
    rw [if_neg hle] at h
    cases h

/-- Helper: complete characterisation of the structural fragment parse —
either it fails with underflow or the type mismatch, or it succeeds and the
recomputed checksum is the fold of the fragment's own chunks over the
seed state (prior checksum, or fresh for a first fragment). -/
theorem fragParsePre_spec (K : Nat → ChecksumKind) (hl : Nat)
    (seed : Option Checksum) (payload : List Nat) :
    (∃ e, fragParsePre K hl seed payload = .error e ∧
      (e = .bufferUnderflow ∨ e = .mismatchedChecksumTypes)) ∨
    (∃ flags ct peer chs done,
      fragParsePre K hl seed payload = .ok (flags, ct, peer, chs, done) ∧
      done = chs.foldl (Checksum.add K) (seedCsum K seed ct)) := by
  unfold fragParsePre
  cases hrb : readByte payload with
  | error e1 =>
    exact .inl ⟨e1, rfl, .inl (readByte_err _ _ hrb)⟩
  | ok pr =>
    obtain ⟨flags, r1⟩ := pr
    dsimp only
    cases hbf : readBytesF hl r1 with
    | error e2 =>
      exact .inl ⟨e2, rfl, .inl (readBytesF_err _ _ _ hbf)⟩
    | ok pr2 =>
      obtain ⟨hdr, r2⟩ := pr2
      dsimp only
      cases hrb2 : readByte r2 with
      | error e3 =>
        exact .inl ⟨e3, rfl, .inl (readByte_err _ _ hrb2)⟩
      | ok pr3 =>
        obtain ⟨ct, r3⟩ := pr3
        dsimp only
        cases hic : initCsum K seed ct with
        | error e4 =>
          exact .inl ⟨e4, rfl, .inr (initCsum_err _ _ _ _ hic)⟩
        | ok csum0 =>
          dsimp only
          cases hbf2 : readBytesF (K csum0.typeCode).size r3 with
          | error e5 =>
            exact .inl ⟨e5, rfl, .inl (readBytesF_err _ _ _ hbf2)⟩
          | ok pr4 =>
            obtain ⟨peer, r4⟩ := pr4
            dsimp only
            cases hrc : readChunks K csum0 r4 with
            | error e6 =>
              exact .inl ⟨e6, rfl, .inl (readChunks_err _ _ _ _ hrc)⟩
            | ok pr5 =>
              obtain ⟨chs, done⟩ := pr5
              dsimp only
              refine .inr ⟨flags, ct, peer, chs, done, rfl, ?_⟩
              rw [← initCsum_ok K seed ct csum0 hic]
              exact readChunks_fold K _ _ _ _ hrc

/-- Characterisation of `newInboundFragment` as a function of the checksum
it is handed: the digest is recomputed as the fold of the fragment's own
chunk bytes over the passed-in checksum (a fresh digest of the declared type
when none is passed), and decoding fails with `ErrMismatchedChecksum` exactly
when that recomputation differs from the declared bytes.  Whether the passed
checksum actually carries the prior fragment's state is up to the caller —
the Go caller never does, see `decodeCallReqContinue`. -/
theorem newInboundFragment_mismatch_iff :
    ∀ (K : Nat → ChecksumKind) (hl : Nat) (seed : Option Checksum)
      (payload : List Nat),
      newInboundFragment K hl seed payload = .error .mismatchedChecksum ↔
      ∃ flags ct peer chs done,
        fragParsePre K hl seed payload = .ok (flags, ct, peer, chs, done) ∧
        done = chs.foldl (Checksum.add K) (seedCsum K seed ct) ∧
        done.sum K ≠ peer := by
  intro K hl seed payload
  unfold newInboundFragment
  rcases fragParsePre_spec K hl seed payload with
    ⟨e, he, hcls⟩ | ⟨flags, ct, peer, chs, done, hok, hfold⟩
  · rw [he]
    dsimp only
    constructor
    · intro h
      injection h with h
      subst h
      rcases hcls with h' | h' <;> cases h'
    · rintro ⟨f', c', p', chs', d', h1, -, -⟩
      cases h1
  · rw [hok]
    dsimp only
    by_cases hsum : done.sum K = peer
    · rw [if_pos hsum]
      constructor
      · intro h
        cases h
      · rintro ⟨f', c', p', chs', d', h1, -, h3⟩
        injection h1 with h1
        obtain ⟨-, -, hp, -, hd⟩ := by
          simpa [Prod.ext_iff] using h1
        exact absurd (hd ▸ hp ▸ hsum) h3
    · rw [if_neg hsum]
      exact ⟨fun _ => ⟨flags, ct, peer, chs, done, rfl, hfold, hsum⟩,
        fun _ => rfl⟩

